import Mathlib

/-!
Verification development for the IncDigest report-generation pipeline.

The definitions below are a shallow embedding of the repository's code:

* `deduct_token` embeds the PL/pgSQL function of the same name in
  `supabase_functions.sql` (row lock, balance check, decrement; a raised
  exception aborts the transaction, leaving the row unchanged).
* `create_report`, `create_token_refund`, `create_error_log` embed the
  methods of `SupabaseClient` in `database.py` (inside
  `database_schema.sql`).
* `process_job` embeds `worker.py`'s function of the same name; the
  SEC fetcher, diff analyzer and AI analyzer are external collaborators
  whose outputs are taken as inputs here.
* `validate_extraction` embeds `QualityValidator.validate_extraction`
  in `quality_validator.py`.
* `generateReportCached` and `generateReportFresh` embed the two steps
  of the `generate-report` edge function (the variant that clones a
  cached report row for the requesting user).
* `searchCompanies` embeds the scoring/sorting/slicing logic of the
  `search-companies` edge function.

Database rows are records, tables are lists of rows, and the per-user
`tokens_remaining` column of `profiles` is a total map from user id to
`Int` (the column is a signed SQL INTEGER and every account in the
claims has a profile row).  String helpers used by the embedded code
(`lowerStr`, `pyWords`, ...) are defined structurally over `String.data`
so that all definitions evaluate by kernel reduction.
-/

/-- One row of `token_transactions` (user, optional report, type
`purchase` / `usage` / `refund` / `grant`, signed amount, description). -/
structure Txn where
  user_id : Nat
  report_id : Option Nat
  transaction_type : String
  tokens_amount : Int
  description : String
deriving DecidableEq, Repr

/-- One row of `reports`, with the columns written by the code paths
modelled here. -/
structure Report where
  id : Nat
  user_id : Nat
  ticker : String
  company_name : String
  newer_filing_date : String
  older_filing_date : String
  newer_accession : String
  older_accession : String
  extraction_success : Bool
  sections_extracted : List String
  extraction_issues : List String
  ai_summaries : List (String × String)
  tokens_used : Int
  refunded : Bool
  ai_cost_usd : ℚ
  total_tokens_consumed : Int
  report_url : Option String
  generation_time_seconds : Int
deriving DecidableEq, Repr

/-- One row of `error_logs` (the fields written by `create_error_log`). -/
structure ErrorLog where
  user_id : Nat
  ticker : String
  error_type : String
  error_message : String
  status : String
deriving DecidableEq, Repr

/-- The database state touched by the pipeline: the `tokens_remaining`
column of `profiles` (a total map, since every account of interest has a
profile row), plus the `token_transactions`, `reports` and `error_logs`
tables.  `nextReportId` models the generator of fresh report ids. -/
structure DBState where
  tokens_remaining : Nat → Int
  txns : List Txn
  reports : List Report
  errorLogs : List ErrorLog
  nextReportId : Nat

/-- `deduct_token` from `supabase_functions.sql`: lock the profile row,
raise `Insufficient tokens` when the balance is below 1 (aborting the
transaction, so the row is unchanged), otherwise decrement
`tokens_remaining` by 1.  No transaction row is written here. -/
def deduct_token (uid : Nat) (s : DBState) : Except String DBState :=
  let current_balance := s.tokens_remaining uid
  if current_balance < 1 then
    .error ("Insufficient tokens: balance is " ++ toString current_balance ++ ", need 1")
  else
    .ok { s with tokens_remaining :=
            fun u => if u = uid then s.tokens_remaining u - 1 else s.tokens_remaining u }

/-- Append one row to `token_transactions`. -/
def insertTxn (t : Txn) (s : DBState) : DBState :=
  { s with txns := s.txns ++ [t] }

/-- Modelled from the spec: the `increment_tokens` RPC is called by
`database.py` but its SQL body is not in the sources; per the spec's
`credit` contract it "appends a transaction and increases balance by
`amount`" — the transaction row is inserted by the caller
(`create_token_refund`), so this RPC increases `tokens_remaining` by
`amount`. -/
def increment_tokens (uid : Nat) (amount : Int) (s : DBState) : DBState :=
  { s with tokens_remaining :=
      fun u => if u = uid then s.tokens_remaining u + amount else s.tokens_remaining u }

/-- `create_token_refund` from `database.py`: mark the report row
refunded, insert a `refund` transaction of +1, and bump the user's
balance via `increment_tokens`.  There is no already-refunded check. -/
def create_token_refund (uid rid : Nat) (reason : String) (s : DBState) : DBState :=
  let markRefunded := fun (r : Report) => if r.id = rid then { r with refunded := true } else r
  let s1 := { s with reports := s.reports.map markRefunded }
  let s2 := insertTxn
    { user_id := uid, report_id := some rid, transaction_type := "refund",
      tokens_amount := 1, description := "Quality refund: " ++ reason } s1
  increment_tokens uid 1 s2

/-- The balance/ledger invariant claimed by the spec: every account's
`tokens_remaining` equals the sum of its transaction amounts. -/
def txnSum (uid : Nat) (txns : List Txn) : Int :=
  ((txns.filter (fun t => t.user_id = uid)).map (fun t => t.tokens_amount)).sum

/-- `balance(account) == sum(transaction.amount ...)` for every account. -/
def balanceInv (s : DBState) : Prop :=
  ∀ uid, s.tokens_remaining uid = txnSum uid s.txns

theorem txnSum_append (uid : Nat) (txns : List Txn) (t : Txn) :
    txnSum uid (txns ++ [t]) =
      txnSum uid txns + (if t.user_id = uid then t.tokens_amount else 0) := by
  unfold txnSum
  rw [List.filter_append]
  by_cases h : t.user_id = uid
  · simp [h]
  · simp [h]

/-- The `usage` transaction insert performed by the `generate-report`
edge function right after a successful `deduct_token` call. -/
def logUsage (uid rid : Nat) (desc : String) (s : DBState) : DBState :=
  insertTxn
    { user_id := uid, report_id := some rid, transaction_type := "usage",
      tokens_amount := -1, description := desc } s

/-- The `checkout.session.completed` handler of the Stripe webhook
(SETUP.md): read the balance, write balance + tokensPurchased back, and
insert a `purchase` transaction of +tokensPurchased. -/
def purchaseTokens (uid : Nat) (tokensPurchased : Nat) (s : DBState) : DBState :=
  let s1 := { s with tokens_remaining :=
                fun u => if u = uid then s.tokens_remaining u + tokensPurchased
                         else s.tokens_remaining u }
  insertTxn
    { user_id := uid, report_id := none, transaction_type := "purchase",
      tokens_amount := (tokensPurchased : Int),
      description := "Purchased " ++ toString tokensPurchased ++ " tokens" } s1

/-- The individual ledger operations named by the spec's balance
invariant: debit via `deduct_token`, usage-transaction logging, refund
via `create_token_refund`, and purchase credit (the webhook). -/
inductive LedgerOp where
  | purchase (uid : Nat) (amt : Nat)
  | debit (uid : Nat)
  | usageLog (uid rid : Nat) (desc : String)
  | refund (uid rid : Nat) (reason : String)

/-- Apply one ledger operation; a failed `deduct_token` aborts its
transaction and leaves the state unchanged. -/
def applyOp (op : LedgerOp) (s : DBState) : DBState :=
  match op with
  | .purchase uid amt => purchaseTokens uid amt s
  | .debit uid =>
      match deduct_token uid s with
      | .ok s1 => s1
      | .error _ => s
  | .usageLog uid rid desc => logUsage uid rid desc s
  | .refund uid rid reason => create_token_refund uid rid reason s

/-- The ledger operations as the code actually composes them: a debit
is immediately followed by its `usage` transaction insert (as in the
`generate-report` edge function), so the pair is one observation step. -/
inductive PairedLedgerOp where
  | purchase (uid : Nat) (amt : Nat)
  | debitLogged (uid rid : Nat) (desc : String)
  | refund (uid rid : Nat) (reason : String)

/-- Apply one paired operation: `debitLogged` is `deduct_token`
followed, on success, by the `usage` insert; on failure the state is
unchanged. -/
def applyPairedOp (op : PairedLedgerOp) (s : DBState) : DBState :=
  match op with
  | .purchase uid amt => purchaseTokens uid amt s
  | .debitLogged uid rid desc =>
      match deduct_token uid s with
      | .ok s1 => logUsage uid rid desc s1
      | .error _ => s
  | .refund uid rid reason => create_token_refund uid rid reason s

/-- The empty database: all balances zero, no rows. -/
def emptyDB : DBState :=
  { tokens_remaining := fun _ => 0, txns := [], reports := [], errorLogs := [],
    nextReportId := 0 }

/-- A database whose every profile row has balance `b` and whose tables
are empty; used to instantiate theorems at concrete inputs. -/
def dbWithBalance (b : Int) : DBState :=
  { emptyDB with tokens_remaining := fun _ => b }

theorem purchaseTokens_balanceInv (s : DBState) (uid amt : Nat)
    (h : balanceInv s) : balanceInv (purchaseTokens uid amt s) := by
  intro u
  have hu := h u
  simp only [purchaseTokens, insertTxn, txnSum_append]
  by_cases hq : u = uid
  · subst hq
    simp [hu]
  · simp [hq, Ne.symm hq, hu]

theorem create_token_refund_balanceInv (s : DBState) (uid rid : Nat)
    (reason : String) (h : balanceInv s) :
    balanceInv (create_token_refund uid rid reason s) := by
  intro u
  have hu := h u
  simp only [create_token_refund, increment_tokens, insertTxn, txnSum_append]
  by_cases hq : u = uid
  · subst hq
    simp [hu]
  · simp [hq, Ne.symm hq, hu]

theorem debitLogged_balanceInv (s : DBState) (uid rid : Nat) (desc : String)
    (h : balanceInv s) :
    balanceInv (applyPairedOp (.debitLogged uid rid desc) s) := by
  by_cases hb : s.tokens_remaining uid < 1
  · simp [applyPairedOp, deduct_token, hb, h]
  · intro u
    have hu := h u
    by_cases hq : u = uid
    · subst hq
      simp only [applyPairedOp, deduct_token]
      rw [if_neg hb]
      simp [logUsage, insertTxn, txnSum_append, hu]
      omega
    · simp only [applyPairedOp, deduct_token]
      rw [if_neg hb]
      simp [logUsage, insertTxn, txnSum_append, hq, Ne.symm hq, hu]

theorem applyPairedOp_balanceInv (s : DBState) (op : PairedLedgerOp)
    (h : balanceInv s) : balanceInv (applyPairedOp op s) := by
  cases op with
  | purchase uid amt => exact purchaseTokens_balanceInv s uid amt h
  | debitLogged uid rid desc => exact debitLogged_balanceInv s uid rid desc h
  | refund uid rid reason => exact create_token_refund_balanceInv s uid rid reason h

/-- C1 fails as stated: from a consistent state (`purchase` of one
token into the empty database), a single completed `deduct_token` call
decrements the balance without writing any transaction row, so at the
observation point right after the debit operation completes the balance
(0) differs from the transaction sum (1). -/
theorem c1_counterexample :
    balanceInv (applyOp (.purchase 0 1) emptyDB) ∧
      ¬ balanceInv (applyOp (.debit 0) (applyOp (.purchase 0 1) emptyDB)) := by
  constructor
  · intro uid
    by_cases h : uid = 0
    · subst h
      decide
    · simp [applyOp, purchaseTokens, insertTxn, emptyDB, txnSum, h, Ne.symm h]
  · intro h
    have h0 := h 0
    simp [applyOp, purchaseTokens, insertTxn, emptyDB, deduct_token, txnSum] at h0

/-- C1 (amended): the balance invariant is preserved by every ledger
operation as the code composes them — purchase credit, debit
immediately followed by its `usage` transaction insert, and refund —
hence holds at every observation point of every such sequence; a bare
completed `deduct_token`, however, leaves the balance one below the
transaction sum until the `usage` row is inserted. -/
theorem c1_amended_balance_invariant :
    (∀ (s : DBState) (op : PairedLedgerOp),
        balanceInv s → balanceInv (applyPairedOp op s)) ∧
    (∀ (ops : List PairedLedgerOp) (s : DBState), balanceInv s →
        balanceInv (ops.foldl (fun t op => applyPairedOp op t) s)) ∧
    (∀ (s : DBState) (uid : Nat), balanceInv s → 1 ≤ s.tokens_remaining uid →
        ∃ s1, deduct_token uid s = .ok s1 ∧
          s1.tokens_remaining uid = txnSum uid s1.txns - 1) := by
  refine ⟨fun s op h => applyPairedOp_balanceInv s op h, ?_, ?_⟩
  · intro ops
    induction ops with
    | nil => intro s h; exact h
    | cons op rest ih =>
        intro s h
        exact ih (applyPairedOp op s) (applyPairedOp_balanceInv s op h)
  · intro s uid h hb
    have hb' : ¬ s.tokens_remaining uid < 1 := by omega
    refine ⟨{ s with tokens_remaining :=
        fun u => if u = uid then s.tokens_remaining u - 1 else s.tokens_remaining u },
      ?_, ?_⟩
    · simp only [deduct_token]
      rw [if_neg hb']
    · have hu := h uid
      simp [hu]

/-- Witness for `c1_amended_balance_invariant` at a concrete sequence:
purchase 2 tokens, then a debit paired with its usage log, then a
refund, starting from the empty database. -/
theorem c1_amended_balance_invariant_witness :
    balanceInv
      (List.foldl (fun t op => applyPairedOp op t)
        emptyDB
        [PairedLedgerOp.purchase 0 2, PairedLedgerOp.debitLogged 0 7 "usage",
          PairedLedgerOp.refund 0 7 "quality"]) :=
  c1_amended_balance_invariant.2.1 _ emptyDB (fun _ => rfl)

/-- C2: `deduct_token` runs its check-and-decrement inside a
`SELECT ... FOR UPDATE` row lock, so two concurrent debit calls against
the same account are serialized; this theorem states the serialized
semantics (the two calls are identical, so the one serial order covers
both): with balance exactly 1, the first call succeeds and the second
signals `Insufficient tokens` — they cannot both succeed. -/
theorem c2_two_debits_balance_one (uid : Nat) (s : DBState)
    (h : s.tokens_remaining uid = 1) :
    ∃ s1 msg, deduct_token uid s = .ok s1 ∧ deduct_token uid s1 = .error msg := by
  have hb : ¬ s.tokens_remaining uid < 1 := by omega
  refine ⟨{ s with tokens_remaining :=
      fun u => if u = uid then s.tokens_remaining u - 1 else s.tokens_remaining u },
    "Insufficient tokens: balance is " ++ toString (0 : Int) ++ ", need 1", ?_, ?_⟩
  · simp only [deduct_token]
    rw [if_neg hb]
  · simp [deduct_token, h]

/-- Witness for `c2_two_debits_balance_one`: every account holds
exactly one token in `dbWithBalance 1`. -/
theorem c2_two_debits_balance_one_witness :
    ∃ s1 msg, deduct_token 0 (dbWithBalance 1) = .ok s1 ∧
      deduct_token 0 s1 = .error msg :=
  c2_two_debits_balance_one 0 (dbWithBalance 1) rfl

/-- The balance an account ends up with after one `deduct_token` call:
on success the decremented value, on failure (the exception aborts the
transaction) the unchanged value. -/
def balanceAfterDeduct (uid : Nat) (s : DBState) : Int :=
  match deduct_token uid s with
  | .ok s1 => s1.tokens_remaining uid
  | .error _ => s.tokens_remaining uid

/-- C3 fails on its last clause as stated: for the starting balance -1
(the `tokens_remaining` column is a signed SQL INTEGER with no CHECK
constraint), `deduct_token` signals the insufficiency error and leaves
the balance unchanged, so the resulting balance is negative. -/
theorem c3_counterexample :
    (∃ msg, deduct_token 0 (dbWithBalance (-1)) = .error msg) ∧
      balanceAfterDeduct 0 (dbWithBalance (-1)) < 0 := by
  exact ⟨⟨_, rfl⟩, by decide⟩

/-- C3 (amended): `deduct_token` signals `Insufficient tokens` exactly
when the balance is below 1 and then leaves the balance unchanged;
otherwise it succeeds and decrements the balance by exactly 1; hence
for every starting balance that is not already negative the resulting
balance is never negative. -/
theorem c3_amended_deduct_token_spec (uid : Nat) (s : DBState) :
    ((∃ msg, deduct_token uid s = .error msg) ↔ s.tokens_remaining uid < 1) ∧
    (s.tokens_remaining uid < 1 →
        balanceAfterDeduct uid s = s.tokens_remaining uid) ∧
    (1 ≤ s.tokens_remaining uid →
        (∃ s1, deduct_token uid s = .ok s1) ∧
          balanceAfterDeduct uid s = s.tokens_remaining uid - 1) ∧
    (0 ≤ s.tokens_remaining uid → 0 ≤ balanceAfterDeduct uid s) := by
  by_cases hb : s.tokens_remaining uid < 1
  · have herr : deduct_token uid s = .error
        ("Insufficient tokens: balance is " ++ toString (s.tokens_remaining uid) ++ ", need 1") := by
      simp only [deduct_token]
      rw [if_pos hb]
    have hafter : balanceAfterDeduct uid s = s.tokens_remaining uid := by
      simp [balanceAfterDeduct, herr]
    refine ⟨⟨fun _ => hb, fun _ => ⟨_, herr⟩⟩, fun _ => hafter,
      fun h1 => absurd h1 (by omega), fun h0 => ?_⟩
    rw [hafter]
    exact h0
  · have hok : deduct_token uid s = .ok { s with tokens_remaining :=
        fun u => if u = uid then s.tokens_remaining u - 1 else s.tokens_remaining u } := by
      simp only [deduct_token]
      rw [if_neg hb]
    have hafter : balanceAfterDeduct uid s = s.tokens_remaining uid - 1 := by
      simp [balanceAfterDeduct, hok]
    refine ⟨⟨fun hmsg => ?_, fun hlt => absurd hlt hb⟩, fun hlt => absurd hlt hb,
      fun _ => ⟨⟨_, hok⟩, hafter⟩, fun _ => ?_⟩
    · obtain ⟨msg, hmsg⟩ := hmsg
      rw [hok] at hmsg
      exact absurd hmsg (by simp)
    · rw [hafter]
      omega

/-- Witness for `c3_amended_deduct_token_spec` at balance 3: the call
succeeds and the resulting balance 2 is nonnegative. -/
theorem c3_amended_deduct_token_spec_witness :
    balanceAfterDeduct 0 (dbWithBalance 3) = (dbWithBalance 3).tokens_remaining 0 - 1 ∧
      0 ≤ balanceAfterDeduct 0 (dbWithBalance 3) :=
  ⟨((c3_amended_deduct_token_spec 0 (dbWithBalance 3)).2.2.1 (by decide)).2,
    (c3_amended_deduct_token_spec 0 (dbWithBalance 3)).2.2.2 (by decide)⟩

/-- Count of `refund` transactions linked to a given user and report. -/
def refundTxnCount (uid rid : Nat) (txns : List Txn) : Nat :=
  txns.countP (fun t =>
    (t.user_id == uid) && (t.report_id == some rid) && (t.transaction_type == "refund"))

/-- A concrete report row awaiting a refund, used as counterexample
material for the refund-idempotence claim. -/
def c4Report : Report :=
  { id := 1, user_id := 0, ticker := "TST", company_name := "TST Corp",
    newer_filing_date := "2025-01-01", older_filing_date := "2024-01-01",
    newer_accession := "acc-2", older_accession := "acc-1",
    extraction_success := false, sections_extracted := [],
    extraction_issues := ["Missing sections: Item 7"], ai_summaries := [],
    tokens_used := 1, refunded := false, ai_cost_usd := 0,
    total_tokens_consumed := 0, report_url := none,
    generation_time_seconds := 1 }

/-- A database holding `c4Report` and an account with balance 5. -/
def c4State : DBState :=
  { tokens_remaining := fun _ => 5, txns := [], reports := [c4Report],
    errorLogs := [], nextReportId := 2 }

/-- C4 fails as stated: `create_token_refund` has no already-refunded
check, so calling it twice for the same report inserts two +1 refund
transactions and raises the balance by 2, not 1. -/
theorem c4_counterexample :
    refundTxnCount 0 1
        (create_token_refund 0 1 "q" (create_token_refund 0 1 "q" c4State)).txns = 2 ∧
      (create_token_refund 0 1 "q" (create_token_refund 0 1 "q" c4State)).tokens_remaining 0 =
        c4State.tokens_remaining 0 + 2 := by
  decide

theorem refundTxnCount_append_refund (uid rid : Nat) (txns : List Txn) (reason : String) :
    refundTxnCount uid rid (txns ++
        [{ user_id := uid, report_id := some rid, transaction_type := "refund",
           tokens_amount := 1, description := reason }]) =
      refundTxnCount uid rid txns + 1 := by
  simp [refundTxnCount, List.countP_append]

/-- C4 (amended): `create_token_refund` is not idempotent.  Each call
appends one +1 `refund` transaction for the report and increments the
balance by 1, so two calls for the same report leave two refund
transactions and a net +2; only the `refunded` flag is idempotent (it
is simply set to true by each call). -/
theorem c4_amended_refund_not_idempotent (s : DBState) (uid rid : Nat) (reason : String) :
    refundTxnCount uid rid
        (create_token_refund uid rid reason (create_token_refund uid rid reason s)).txns =
      refundTxnCount uid rid s.txns + 2 ∧
    (create_token_refund uid rid reason
        (create_token_refund uid rid reason s)).tokens_remaining uid =
      s.tokens_remaining uid + 2 ∧
    (∀ r ∈ (create_token_refund uid rid reason
        (create_token_refund uid rid reason s)).reports,
      r.id = rid → r.refunded = true) := by
  refine ⟨?_, ?_, ?_⟩
  · show refundTxnCount uid rid ((s.txns ++ [_]) ++ [_]) = _
    rw [refundTxnCount_append_refund, refundTxnCount_append_refund]
  · simp [create_token_refund, increment_tokens, insertTxn]
    omega
  · intro r hr hid
    simp only [create_token_refund, increment_tokens, insertTxn, List.map_map] at hr
    simp only [List.mem_map] at hr
    obtain ⟨r0, _, rfl⟩ := hr
    by_cases h0 : r0.id = rid
    · simp [Function.comp, h0]
    · exfalso
      simp [Function.comp, h0] at hid

/-- Witness for `c4_amended_refund_not_idempotent` on the concrete
state `c4State`: two refunds add exactly 2 to the balance and the
twice-marked report row is refunded. -/
theorem c4_amended_refund_not_idempotent_witness :
    (create_token_refund 0 1 "q" (create_token_refund 0 1 "q" c4State)).tokens_remaining 0 =
      c4State.tokens_remaining 0 + 2 ∧
    ({ c4Report with refunded := true } : Report).refunded = true := by
  refine ⟨(c4_amended_refund_not_idempotent c4State 0 1 "q").2.1, ?_⟩
  exact (c4_amended_refund_not_idempotent c4State 0 1 "q").2.2
    { c4Report with refunded := true } (by decide) (by decide)

/-- One filing as returned by the SEC fetcher: date, accession id,
company name, and the extracted sections as an ordered name/text map. -/
structure Filing where
  filing_date : String
  accession : String
  company_name : String
  sections : List (String × String)
deriving DecidableEq, Repr

/-- The summarization result consumed by the worker: per-section
narratives plus cost/usage accounting. -/
structure AIResults where
  summaries : List (String × String)
  total_cost_usd : ℚ
  total_tokens : Int
deriving DecidableEq, Repr

/-- The value returned by `validate_extraction`. -/
structure QualityResult where
  is_valid : Bool
  issues : List String
deriving DecidableEq, Repr

/-- Python's `str.split()` on a character list: split on runs of
whitespace, dropping empty pieces; `acc` accumulates the current word
in reverse. -/
def wordsAux : List Char → List Char → List (List Char)
  | [], acc => if acc.isEmpty then [] else [acc.reverse]
  | c :: cs, acc =>
    if c.isWhitespace then
      if acc.isEmpty then wordsAux cs [] else acc.reverse :: wordsAux cs []
    else wordsAux cs (c :: acc)

/-- `content.split()` in the validator: whitespace-delimited words. -/
def pyWords (s : String) : List String :=
  (wordsAux s.data []).map (fun l => String.mk l)

/-- `len(content.split())` in the validator. -/
def wordCount (s : String) : Nat := (pyWords s).length

/-- `self.min_word_counts` of `QualityValidator`. -/
def min_word_counts : String → Option Nat
  | "Item 1" => some 1000
  | "Item 1A" => some 5000
  | "Item 7" => some 5000
  | "Item 8" => some 10000
  | _ => none

/-- `required_sections` in check 1 of `validate_extraction`. -/
def required_sections : List String := ["Item 1", "Item 1A", "Item 7", "Item 8"]

/-- The f-string of check 1: `"Missing sections: ..."`. -/
def missingMsg (missing : List String) : String :=
  "Missing sections: " ++ String.intercalate ", " missing

/-- The f-string of check 2:
`"{name}: Content too short ({wc} words, expected {minw}+)"`. -/
def tooShortMsg (name : String) (wc minw : Nat) : String :=
  name ++ ": Content too short (" ++ toString wc ++ " words, expected "
    ++ toString minw ++ "+)"

/-- The f-string of check 3. -/
def tablesMsg (name : String) : String :=
  name ++ ": Appears to be mostly tables/numbers (may indicate extraction error)"

/-- Check 1: every required section present in every filing. -/
def check1Issues (filings : List Filing) : List String :=
  filings.flatMap (fun f =>
    let missing := required_sections.filter
      (fun s => ¬ (f.sections.map Prod.fst).contains s)
    if missing.isEmpty then [] else [missingMsg missing])

/-- Check 2: every present section with a per-section minimum meets it. -/
def check2Issues (filings : List Filing) : List String :=
  filings.flatMap (fun f =>
    f.sections.flatMap (fun sc =>
      match min_word_counts sc.1 with
      | some minw =>
          if wordCount sc.2 < minw then [tooShortMsg sc.1 (wordCount sc.2) minw] else []
      | none => []))

/-- Check 3: flag a section when more than 80% of its words contain a
digit (`number_words / len(words) > 0.8`, encoded exactly as
`5 * number_words > 4 * len(words)`). -/
def check3Issues (filings : List Filing) : List String :=
  filings.flatMap (fun f =>
    f.sections.flatMap (fun sc =>
      let words := pyWords sc.2
      if words.length > 0 then
        let number_words := words.countP (fun w => w.data.any Char.isDigit)
        if 5 * number_words > 4 * words.length then [tablesMsg sc.1] else []
      else []))

/-- Check 4: the summarizer produced at least one narrative. -/
def check4Issues (ai_results : AIResults) : List String :=
  if ai_results.summaries.isEmpty then ["No AI summaries generated"] else []

/-- `QualityValidator.validate_extraction`: run the four checks in
order, accumulating (never short-circuiting); valid iff no issues.
The diff results are received but never read by the validator, so
their type is abstract here. -/
def validate_extraction {α : Type} (filings : List Filing) (_diff_results : α)
    (ai_results : AIResults) : QualityResult :=
  let issues := check1Issues filings ++ check2Issues filings
    ++ check3Issues filings ++ check4Issues ai_results
  { is_valid := issues.isEmpty, issues := issues }

theorem string_data_append (s t : String) : (s ++ t).data = s.data ++ t.data := rfl

/-- A present section is "short" when it has a per-section minimum and
its whitespace-delimited word count is below it. -/
def isShortSection (sc : String × String) : Bool :=
  match min_word_counts sc.1 with
  | some minw => decide (wordCount sc.2 < minw)
  | none => false

theorem check2_elem_length (sc : String × String) :
    (match min_word_counts sc.1 with
      | some minw =>
          if wordCount sc.2 < minw then [tooShortMsg sc.1 (wordCount sc.2) minw] else []
      | none => ([] : List String)).length = if isShortSection sc then 1 else 0 := by
  unfold isShortSection
  cases h : min_word_counts sc.1 with
  | none => simp
  | some minw =>
      by_cases hw : wordCount sc.2 < minw
      · simp [hw]
      · simp [hw]

theorem length_flatMap_filter {α β : Type} (M : List α) (p : α → Bool) (g : α → List β)
    (h : ∀ x, (g x).length = if p x then 1 else 0) :
    (M.flatMap g).length = (M.filter p).length := by
  induction M with
  | nil => simp
  | cons a as ih =>
      simp only [List.flatMap_cons, List.length_append, List.filter_cons, ih, h a]
      cases hp : p a
      · simp [hp]
      · simp [hp]
        omega

theorem flatMap_eq_nil_of {α β : Type} (M : List α) (g : α → List β)
    (h : ∀ x ∈ M, g x = []) : M.flatMap g = [] := by
  induction M with
  | nil => rfl
  | cons a as ih =>
      simp only [List.flatMap_cons, h a (by simp)]
      exact ih (fun x hx => h x (by simp [hx]))

theorem mem_check2Issues {filings : List Filing} {f : Filing} {name content : String}
    {minw : Nat} (hf : f ∈ filings) (hsc : (name, content) ∈ f.sections)
    (hmin : min_word_counts name = some minw) (hshort : wordCount content < minw) :
    tooShortMsg name (wordCount content) minw ∈ check2Issues filings := by
  unfold check2Issues
  rw [List.mem_flatMap]
  refine ⟨f, hf, ?_⟩
  rw [List.mem_flatMap]
  exact ⟨(name, content), hsc, by simp [hmin, hshort]⟩

theorem check2Issues_length (filings : List Filing) :
    (check2Issues filings).length =
      ((filings.flatMap (fun f => f.sections)).filter isShortSection).length := by
  unfold check2Issues
  rw [← List.flatMap_assoc filings (fun f => f.sections)]
  exact length_flatMap_filter _ _ _ check2_elem_length

theorem tooShortMsg_contains_name (name : String) (wc minw : Nat) :
    ∃ l r, (tooShortMsg name wc minw).data = l ++ name.data ++ r := by
  refine ⟨[], (": Content too short (" ++ toString wc ++ " words, expected "
    ++ toString minw ++ "+)").data, ?_⟩
  simp [tooShortMsg, string_data_append, List.append_assoc]

theorem tooShortMsg_contains_wc (name : String) (wc minw : Nat) :
    ∃ l r, (tooShortMsg name wc minw).data = l ++ (toString wc).data ++ r := by
  refine ⟨(name ++ ": Content too short (").data,
    (" words, expected " ++ toString minw ++ "+)").data, ?_⟩
  simp [tooShortMsg, string_data_append, List.append_assoc]

theorem tooShortMsg_contains_minw (name : String) (wc minw : Nat) :
    ∃ l r, (tooShortMsg name wc minw).data = l ++ (toString minw).data ++ r := by
  refine ⟨(name ++ ": Content too short (" ++ toString wc ++ " words, expected ").data,
    ("+)").data, ?_⟩
  simp [tooShortMsg, string_data_append, List.append_assoc]

/-- C9: for every present section with a per-section minimum whose
whitespace-delimited word count falls below that minimum,
`validate_extraction` reports the issue string of check 2, and that
string contains the section name, the actual word count, and the
required minimum as substrings (so 200 words against a 5000 minimum
yields a string containing both numbers); check 2 produces exactly one
issue per short occurrence, and no issue at all when every section
meets its minimum. -/
theorem c9_min_word_count_issues {α : Type} (filings : List Filing) (diff : α)
    (ai : AIResults) :
    (∀ f ∈ filings, ∀ name content, (name, content) ∈ f.sections →
        ∀ minw, min_word_counts name = some minw → wordCount content < minw →
          tooShortMsg name (wordCount content) minw
            ∈ (validate_extraction filings diff ai).issues) ∧
    (∀ name wc minw,
        (∃ l r, (tooShortMsg name wc minw).data = l ++ name.data ++ r) ∧
        (∃ l r, (tooShortMsg name wc minw).data = l ++ (toString wc).data ++ r) ∧
        (∃ l r, (tooShortMsg name wc minw).data = l ++ (toString minw).data ++ r)) ∧
    (check2Issues filings).length =
      ((filings.flatMap (fun f => f.sections)).filter isShortSection).length ∧
    ((∀ f ∈ filings, ∀ sc ∈ f.sections, isShortSection sc = false) →
        check2Issues filings = []) := by
  refine ⟨?_, ?_, check2Issues_length filings, ?_⟩
  · intro f hf name content hsc minw hmin hshort
    have h2 := mem_check2Issues hf hsc hmin hshort
    simp only [validate_extraction, List.mem_append]
    exact Or.inl (Or.inl (Or.inr h2))
  · intro name wc minw
    exact ⟨tooShortMsg_contains_name name wc minw, tooShortMsg_contains_wc name wc minw,
      tooShortMsg_contains_minw name wc minw⟩
  · intro hall
    unfold check2Issues
    refine flatMap_eq_nil_of _ _ (fun f hf => ?_)
    refine flatMap_eq_nil_of _ _ (fun sc hsc => ?_)
    have h := hall f hf sc hsc
    unfold isShortSection at h
    cases hm : min_word_counts sc.1 with
    | none => simp
    | some minw =>
        rw [hm] at h
        simp only [decide_eq_false_iff_not] at h
        simp [h]

/-- A one-filing fixture whose Item 7 has two words, far below its
5000-word minimum. -/
def c9Filing : Filing :=
  { filing_date := "2025-01-01", accession := "acc-2", company_name := "TST Corp",
    sections := [("Item 7", "a b")] }

/-- Witness for `c9_min_word_count_issues`: the validator run on
`c9Filing` reports the check-2 issue for Item 7. -/
theorem c9_min_word_count_issues_witness :
    tooShortMsg "Item 7" (wordCount "a b") 5000
      ∈ (validate_extraction [c9Filing] ()
          { summaries := [("Item 7", "x")], total_cost_usd := 0, total_tokens := 0 }).issues :=
  (c9_min_word_count_issues [c9Filing] ()
      { summaries := [("Item 7", "x")], total_cost_usd := 0, total_tokens := 0 }).1
    c9Filing (by simp) "Item 7" "a b" (by simp [c9Filing]) 5000 rfl (by decide)

/-- `SupabaseClient.create_report`: insert a report row with
`tokens_used = 1` and `refunded = False`, returning the new row's id. -/
def create_report (uid : Nat) (ticker company_name newer_filing_date older_filing_date
    newer_accession older_accession : String) (sections_extracted : List String)
    (extraction_issues : List String) (extraction_success : Bool)
    (ai_summaries : List (String × String)) (ai_cost_usd : ℚ)
    (total_tokens_consumed : Int) (generation_time_seconds : Int)
    (s : DBState) : Nat × DBState :=
  let r : Report :=
    { id := s.nextReportId, user_id := uid, ticker := ticker,
      company_name := company_name, newer_filing_date := newer_filing_date,
      older_filing_date := older_filing_date, newer_accession := newer_accession,
      older_accession := older_accession, extraction_success := extraction_success,
      sections_extracted := sections_extracted, extraction_issues := extraction_issues,
      ai_summaries := ai_summaries, tokens_used := 1, refunded := false,
      ai_cost_usd := ai_cost_usd, total_tokens_consumed := total_tokens_consumed,
      report_url := none, generation_time_seconds := generation_time_seconds }
  (s.nextReportId, { s with reports := s.reports ++ [r], nextReportId := s.nextReportId + 1 })

/-- `SupabaseClient.create_error_log`: insert an error-log row with
status `open`. -/
def create_error_log (uid : Nat) (ticker error_type error_message : String)
    (s : DBState) : DBState :=
  { s with errorLogs := s.errorLogs ++
      [{ user_id := uid, ticker := ticker, error_type := error_type,
         error_message := error_message, status := "open" }] }

/-- Terminal status reported in the worker's callback. -/
inductive JobOutcome where
  | completed (report_id : Nat)
  | failed (error : String)
deriving DecidableEq, Repr

/-- `worker.process_job`: fail (and log) when fewer than two filings
exist; otherwise validate quality, insert the report (newer data from
`filings[0]`, older from `filings[1]`), and, only when the quality gate
failed, issue `create_token_refund`.  The diff and summarization steps
are external collaborators, so their outputs (`diff_results`,
`ai_results`) are inputs here.  Note: no `deduct_token` call and no
`usage` transaction appear anywhere in this function. -/
def process_job {α : Type} (uid : Nat) (ticker : String) (filings : List Filing)
    (diff_results : α) (ai_results : AIResults) (generation_time_seconds : Int)
    (s : DBState) : JobOutcome × DBState :=
  match filings with
  | f0 :: f1 :: _ =>
      let quality_result := validate_extraction filings diff_results ai_results
      let res := create_report uid ticker f0.company_name f0.filing_date
        f1.filing_date f0.accession f1.accession (f0.sections.map Prod.fst)
        quality_result.issues quality_result.is_valid ai_results.summaries
        ai_results.total_cost_usd ai_results.total_tokens generation_time_seconds s
      let s2 := if quality_result.is_valid then res.2
        else create_token_refund uid res.1
          ("Quality issues: " ++ String.intercalate ", " quality_result.issues) res.2
      (JobOutcome.completed res.1, s2)
  | _ =>
      let msg := "Need 2 filings, found " ++ toString filings.length
      (JobOutcome.failed msg, create_error_log uid ticker "extraction_failed" msg s)

/-- Result of the fresh (non-cached) path of `generate-report`. -/
inductive FreshOutcome where
  | insufficientTokens
  | accepted (job : JobOutcome)
deriving DecidableEq, Repr

/-- The fresh path end to end: the edge function's pre-flight balance
check (`tokens_remaining < 1` rejects with 402 before dispatch),
followed by the worker run.  The edge function performs no debit here;
it only reads the balance. -/
def generateReportFresh {α : Type} (uid : Nat) (ticker : String) (filings : List Filing)
    (diff_results : α) (ai_results : AIResults) (generation_time_seconds : Int)
    (s : DBState) : FreshOutcome × DBState :=
  if s.tokens_remaining uid < 1 then (.insufficientTokens, s)
  else
    let res := process_job uid ticker filings diff_results ai_results
      generation_time_seconds s
    (.accepted res.1, res.2)

/-- 10000 one-letter words: long enough for every per-section minimum. -/
def goodContent : String := String.mk ((List.replicate 10000 ['a', ' ']).flatten)

theorem wordsAux_replicate (n : Nat) :
    wordsAux ((List.replicate n ['a', ' ']).flatten) [] = List.replicate n ['a'] := by
  induction n with
  | zero => rfl
  | succ n ih =>
      rw [List.replicate_succ, List.flatten_cons]
      show wordsAux ('a' :: ' ' :: (List.replicate n ['a', ' ']).flatten) [] = _
      rw [wordsAux]
      simp only [show ('a').isWhitespace = false from rfl, if_false, Bool.false_eq_true]
      rw [wordsAux]
      simp only [show (' ').isWhitespace = true from rfl, if_true]
      simp [ih, List.replicate_succ]

theorem pyWords_goodContent : pyWords goodContent = List.replicate 10000 "a" := by
  unfold pyWords goodContent
  rw [show (String.mk ((List.replicate 10000 ['a', ' ']).flatten)).data =
        (List.replicate 10000 ['a', ' ']).flatten from rfl]
  rw [wordsAux_replicate, List.map_replicate]

theorem wordCount_goodContent : wordCount goodContent = 10000 := by
  unfold wordCount
  rw [pyWords_goodContent]
  simp only [List.length_replicate]

/-- The newer of two filings whose every required section holds
`goodContent` (10000 words), so the quality gate passes. -/
def goodFiling : Filing :=
  { filing_date := "2025-02-02", accession := "acc-new", company_name := "TST Corp",
    sections := [("Item 1", goodContent), ("Item 1A", goodContent),
      ("Item 7", goodContent), ("Item 8", goodContent)] }

/-- The older counterpart of `goodFiling`. -/
def goodFilingOld : Filing :=
  { filing_date := "2024-02-02", accession := "acc-old", company_name := "TST Corp",
    sections := [("Item 1", goodContent), ("Item 1A", goodContent),
      ("Item 7", goodContent), ("Item 8", goodContent)] }

/-- A summarization result with nonempty narratives. -/
def goodAI : AIResults :=
  { summaries := [("Item 1", "Business changed.")], total_cost_usd := 9 / 100,
    total_tokens := 24900 }

theorem check1_goodFilings : check1Issues [goodFiling, goodFilingOld] = [] := by
  decide

theorem min_word_counts_le (name : String) (minw : Nat)
    (h : min_word_counts name = some minw) : minw ≤ 10000 := by
  unfold min_word_counts at h
  split at h <;> simp_all
  all_goals omega

theorem sections_good (f : Filing)
    (hf : f = goodFiling ∨ f = goodFilingOld) :
    ∀ sc ∈ f.sections, sc.2 = goodContent := by
  intro sc hsc
  rcases hf with rfl | rfl <;>
    · simp only [goodFiling, goodFilingOld, List.mem_cons, List.not_mem_nil,
        or_false] at hsc
      rcases hsc with h | h | h | h <;> subst h <;> rfl

theorem check2_section_good (name : String) :
    (match min_word_counts name with
     | some minw =>
         if wordCount goodContent < minw
         then [tooShortMsg name (wordCount goodContent) minw] else []
     | none => ([] : List String)) = [] := by
  cases h : min_word_counts name with
  | none => rfl
  | some minw =>
      have hle := min_word_counts_le name minw h
      show (if wordCount goodContent < minw
          then [tooShortMsg name (wordCount goodContent) minw] else []) = []
      rw [if_neg]
      rw [wordCount_goodContent]
      omega

theorem check2_goodFilings : check2Issues [goodFiling, goodFilingOld] = [] := by
  unfold check2Issues
  refine flatMap_eq_nil_of _ _ (fun f hf => ?_)
  refine flatMap_eq_nil_of _ _ (fun sc hsc => ?_)
  have h2 : sc.2 = goodContent := by
    refine sections_good f ?_ sc hsc
    simpa using hf
  rw [h2]
  exact check2_section_good sc.1

theorem check3_section_good (name : String) :
    (if (pyWords goodContent).length > 0 then
       (if 5 * ((pyWords goodContent).countP (fun w => w.data.any Char.isDigit))
           > 4 * (pyWords goodContent).length then [tablesMsg name] else [])
     else ([] : List String)) = [] := by
  rw [pyWords_goodContent, List.countP_replicate, List.length_replicate]
  simp

theorem check3_goodFilings : check3Issues [goodFiling, goodFilingOld] = [] := by
  unfold check3Issues
  refine flatMap_eq_nil_of _ _ (fun f hf => ?_)
  refine flatMap_eq_nil_of _ _ (fun sc hsc => ?_)
  have h2 : sc.2 = goodContent := by
    refine sections_good f ?_ sc hsc
    simpa using hf
  rw [h2]
  exact check3_section_good sc.1

theorem validate_goodFilings :
    validate_extraction [goodFiling, goodFilingOld] () goodAI =
      { is_valid := true, issues := [] } := by
  unfold validate_extraction
  rw [check1_goodFilings, check2_goodFilings, check3_goodFilings]
  rfl

/-- The fresh request of the C5 scenario: account 0 with balance 3,
ticker TST, two gate-passing filings. -/
def c5Run : FreshOutcome × DBState :=
  generateReportFresh 0 "TST" [goodFiling, goodFilingOld] () goodAI 120 (dbWithBalance 3)

/-- The single report row that the C5 run inserts. -/
def c5ExpectedReport : Report :=
  { id := 0, user_id := 0, ticker := "TST",
    company_name := goodFiling.company_name,
    newer_filing_date := goodFiling.filing_date,
    older_filing_date := goodFilingOld.filing_date,
    newer_accession := goodFiling.accession,
    older_accession := goodFilingOld.accession,
    extraction_success := true,
    sections_extracted := goodFiling.sections.map Prod.fst,
    extraction_issues := [], ai_summaries := goodAI.summaries,
    tokens_used := 1, refunded := false,
    ai_cost_usd := goodAI.total_cost_usd,
    total_tokens_consumed := goodAI.total_tokens, report_url := none,
    generation_time_seconds := 120 }

/-- The database state after the C5 run. -/
def c5ExpectedState : DBState :=
  { tokens_remaining := (dbWithBalance 3).tokens_remaining,
    txns := [], reports := [c5ExpectedReport], errorLogs := [], nextReportId := 1 }

/-- C5 on the code as written: the fresh run with a passing Quality
Gate does create exactly one new Report with `extraction_success =
true` and `refunded = false`, but the ledger half of the claim fails —
no `usage` transaction is recorded anywhere on the fresh path (neither
the edge function nor `process_job` calls `deduct_token` or inserts a
transaction), and the balance stays 3 instead of dropping to 2. -/
theorem c5_fresh_success_report_but_no_debit :
    c5Run.1 = FreshOutcome.accepted (JobOutcome.completed 0) ∧
    c5Run.2.reports.map (fun r => (r.id, r.user_id, r.extraction_success, r.refunded)) =
      [(0, 0, true, false)] ∧
    c5Run.2.txns = [] ∧
    c5Run.2.tokens_remaining 0 = 3 := by
  have h5 : c5Run = (FreshOutcome.accepted (JobOutcome.completed 0), c5ExpectedState) := by
    unfold c5Run generateReportFresh
    rw [if_neg (by decide)]
    unfold process_job
    rw [validate_goodFilings]
    rfl
  rw [h5]
  refine ⟨rfl, ?_, rfl, rfl⟩
  simp [c5ExpectedState, c5ExpectedReport]

/-- The newer of two filings missing Item 1A/7/8 and with a two-word
Item 1, so the quality gate fails. -/
def badFiling : Filing :=
  { filing_date := "2025-02-02", accession := "acc-new", company_name := "TST Corp",
    sections := [("Item 1", "a b")] }

/-- The older counterpart of `badFiling`. -/
def badFilingOld : Filing :=
  { filing_date := "2024-02-02", accession := "acc-old", company_name := "TST Corp",
    sections := [("Item 1", "a b")] }

/-- A summarization result for the failing run. -/
def badAI : AIResults :=
  { summaries := [("Item 1", "Partial.")], total_cost_usd := 1 / 100,
    total_tokens := 500 }

/-- The fresh request of the C6 scenario: account 0 with balance 3,
two filings failing the Quality Gate. -/
def c6Run : FreshOutcome × DBState :=
  generateReportFresh 0 "TST" [badFiling, badFilingOld] () badAI 60 (dbWithBalance 3)

/-- C6 on the code as written: when the Quality Gate fails on a fresh
run, the Report is persisted with `extraction_success = false` and
`refunded = true` and a +1 refund transaction is written — but since no
debit ever happened on the fresh path, the account's balance rises from
3 to 4 instead of returning to 3 (the net cost is -1, not zero). -/
theorem c6_gate_failure_refund_without_debit :
    c6Run.1 = FreshOutcome.accepted (JobOutcome.completed 0) ∧
    c6Run.2.reports.map (fun r => (r.id, r.user_id, r.extraction_success, r.refunded)) =
      [(0, 0, false, true)] ∧
    c6Run.2.txns.map (fun t => (t.user_id, t.report_id, t.transaction_type, t.tokens_amount)) =
      [(0, some 0, "refund", 1)] ∧
    c6Run.2.tokens_remaining 0 = 4 := by
  decide

/-- Result of the cached path of `generate-report`. -/
inductive CachedResult where
  | ok (report_id : Nat) (refunded : Bool)
  | insufficientTokens
deriving DecidableEq, Repr

/-- The clone row inserted by the cached path: the narrative and filing
fields are copied from the cached report, the owner becomes the
requesting user, `tokens_used` is 1, and the incremental cost fields
are zeroed (`ai_cost_usd = 0`, `total_tokens_consumed = 0`,
`generation_time_seconds = 0`). -/
def mkClone (uid : Nat) (fullReport : Report) (newId : Nat) : Report :=
  { id := newId, user_id := uid, ticker := fullReport.ticker,
    company_name := fullReport.company_name,
    newer_filing_date := fullReport.newer_filing_date,
    older_filing_date := fullReport.older_filing_date,
    newer_accession := fullReport.newer_accession,
    older_accession := fullReport.older_accession,
    extraction_success := fullReport.extraction_success,
    sections_extracted := fullReport.sections_extracted,
    extraction_issues := fullReport.extraction_issues,
    ai_summaries := fullReport.ai_summaries,
    tokens_used := 1, refunded := fullReport.refunded,
    ai_cost_usd := 0, total_tokens_consumed := 0,
    report_url := fullReport.report_url, generation_time_seconds := 0 }

/-- The cached path of `generate-report` (the clone-inserting variant):
insert a clone of the cached report owned by the requesting user; if
the cached report was not refunded, charge via `deduct_token` — on
failure delete the clone just inserted and answer 402, on success log
the `usage` transaction of -1; a refunded cached report is free. -/
def generateReportCached (uid : Nat) (cachedReport : Report) (s : DBState) :
    CachedResult × DBState :=
  let clone := mkClone uid cachedReport s.nextReportId
  let s1 := { s with
      reports := s.reports ++ [clone],
      nextReportId := s.nextReportId + 1 }
  if cachedReport.refunded then
    (.ok clone.id true, s1)
  else
    match deduct_token uid s1 with
    | .error _ =>
        (.insufficientTokens,
          { s1 with reports := s1.reports.filter (fun r => r.id ≠ clone.id) })
    | .ok s2 =>
        (.ok clone.id false,
          logUsage uid clone.id ("Cached report for " ++ cachedReport.ticker) s2)

theorem deduct_token_ok_frame (uid : Nat) (s s2 : DBState)
    (h : deduct_token uid s = .ok s2) :
    s2.reports = s.reports ∧ s2.txns = s.txns ∧ s2.nextReportId = s.nextReportId := by
  unfold deduct_token at h
  dsimp only at h
  split at h
  · cases h
  · cases h
    exact ⟨rfl, rfl, rfl⟩

theorem cached_reports_cases (uid : Nat) (cached : Report) (s : DBState) :
    (generateReportCached uid cached s).2.reports =
        s.reports ++ [mkClone uid cached s.nextReportId] ∨
    (generateReportCached uid cached s).2.reports =
        (s.reports ++ [mkClone uid cached s.nextReportId]).filter
          (fun r => r.id ≠ s.nextReportId) := by
  unfold generateReportCached
  by_cases hr : cached.refunded = true
  · rw [if_pos hr]
    exact Or.inl rfl
  · rw [if_neg hr]
    cases hd : deduct_token uid { s with
        reports := s.reports ++ [mkClone uid cached s.nextReportId],
        nextReportId := s.nextReportId + 1 } with
    | error e => right; rfl
    | ok s2 =>
        left
        show (logUsage uid _ _ s2).reports = _
        have hfr := (deduct_token_ok_frame _ _ _ hd).1
        simpa [logUsage, insertTxn] using hfr

/-- C7: on a cache hit (either outcome of the charge), every
pre-existing report row — the original cached Report included — is
still present unchanged, and any row the operation added has
`ai_cost_usd = 0` and `total_tokens_consumed = 0` and is owned by the
requesting user.  The hypothesis states that the generated id of the
clone row is fresh. -/
theorem c7_cached_clone_zero_cost_and_frame (uid : Nat) (cached : Report) (s : DBState)
    (hfresh : ∀ r ∈ s.reports, r.id ≠ s.nextReportId) :
    (∀ r ∈ s.reports, r ∈ (generateReportCached uid cached s).2.reports) ∧
    (cached ∈ s.reports → cached ∈ (generateReportCached uid cached s).2.reports) ∧
    (∀ r ∈ (generateReportCached uid cached s).2.reports,
        r ∈ s.reports ∨
          (r.ai_cost_usd = 0 ∧ r.total_tokens_consumed = 0 ∧ r.user_id = uid)) := by
  have hclone : ∀ r, r ∈ [mkClone uid cached s.nextReportId] →
      r.ai_cost_usd = 0 ∧ r.total_tokens_consumed = 0 ∧ r.user_id = uid := by
    intro r hr
    rw [List.mem_singleton] at hr
    subst hr
    exact ⟨rfl, rfl, rfl⟩
  rcases cached_reports_cases uid cached s with hcase | hcase <;> rw [hcase]
  · refine ⟨fun r hr => List.mem_append_left _ hr,
      fun hm => List.mem_append_left _ hm, fun r hr => ?_⟩
    rcases List.mem_append.mp hr with hl | hcl
    · exact Or.inl hl
    · exact Or.inr (hclone r hcl)
  · have hkeep : ∀ r ∈ s.reports,
        r ∈ (s.reports ++ [mkClone uid cached s.nextReportId]).filter
          (fun r => r.id ≠ s.nextReportId) := by
      intro r hr
      refine List.mem_filter.mpr ⟨List.mem_append_left _ hr, ?_⟩
      simp [hfresh r hr]
    refine ⟨hkeep, fun hm => hkeep cached hm, fun r hr => ?_⟩
    have hr' := List.mem_of_mem_filter hr
    rcases List.mem_append.mp hr' with hl | hcl
    · exact Or.inl hl
    · exact Or.inr (hclone r hcl)

/-- Witness for `c7_cached_clone_zero_cost_and_frame` on `c4State`: the
original cached report row is still present after the cache hit. -/
theorem c7_cached_clone_zero_cost_and_frame_witness :
    c4Report ∈ (generateReportCached 3 c4Report c4State).2.reports :=
  (c7_cached_clone_zero_cost_and_frame 3 c4Report c4State (by decide)).2.1 (by decide)

/-- C8: on a cache hit whose source report was not refunded, if the
account balance is below 1 the charge fails, the clone just inserted is
deleted again (so the report table, the transaction log and every
balance end up exactly as before), and the caller receives the
insufficient-tokens error.  The hypothesis `hfresh` states that the
generated clone id is fresh, so the delete removes only the clone. -/
theorem c8_cached_insufficient_balance_rollback (uid : Nat) (cached : Report)
    (s : DBState) (hr : cached.refunded = false)
    (hb : s.tokens_remaining uid < 1)
    (hfresh : ∀ r ∈ s.reports, r.id ≠ s.nextReportId) :
    (generateReportCached uid cached s).1 = CachedResult.insufficientTokens ∧
    (generateReportCached uid cached s).2.reports = s.reports ∧
    (generateReportCached uid cached s).2.txns = s.txns ∧
    (generateReportCached uid cached s).2.tokens_remaining = s.tokens_remaining := by
  have hrne : ¬ cached.refunded = true := by simp [hr]
  have herr : deduct_token uid { s with
      reports := s.reports ++ [mkClone uid cached s.nextReportId],
      nextReportId := s.nextReportId + 1 } =
      .error ("Insufficient tokens: balance is " ++ toString (s.tokens_remaining uid)
        ++ ", need 1") := by
    unfold deduct_token
    dsimp only
    rw [if_pos hb]
  have hfilter : (s.reports ++ [mkClone uid cached s.nextReportId]).filter
      (fun r => r.id ≠ s.nextReportId) = s.reports := by
    rw [List.filter_append]
    have h1 : s.reports.filter (fun r => r.id ≠ s.nextReportId) = s.reports := by
      rw [List.filter_eq_self]
      intro r hrm
      simp [hfresh r hrm]
    have h2 : ([mkClone uid cached s.nextReportId].filter
        (fun r => r.id ≠ s.nextReportId)) = [] := by
      simp [mkClone]
    rw [h1, h2, List.append_nil]
  unfold generateReportCached
  rw [if_neg hrne]
  rw [herr]
  exact ⟨rfl, hfilter, rfl, rfl⟩

/-- A database with one unrefunded cached report and a broke account. -/
def c8State : DBState :=
  { tokens_remaining := fun _ => 0, txns := [], reports := [c4Report],
    errorLogs := [], nextReportId := 2 }

/-- Witness for `c8_cached_insufficient_balance_rollback` on `c8State`:
the cache hit for a broke account reports insufficient tokens and the
report table is exactly as before. -/
theorem c8_cached_insufficient_balance_rollback_witness :
    (generateReportCached 0 c4Report c8State).1 = CachedResult.insufficientTokens ∧
    (generateReportCached 0 c4Report c8State).2.reports = c8State.reports :=
  ⟨(c8_cached_insufficient_balance_rollback 0 c4Report c8State rfl (by decide)
      (by decide)).1,
    (c8_cached_insufficient_balance_rollback 0 c4Report c8State rfl (by decide)
      (by decide)).2.1⟩

/-- One row of `companies` as selected by `search-companies`. -/
structure Company where
  ticker : String
  company_name : String
  cik : String
deriving DecidableEq, Repr

/-- JavaScript `toLowerCase()` (character-wise, as used on ASCII
tickers and names). -/
def lowerStr (s : String) : String := String.mk (s.data.map Char.toLower)

/-- JavaScript `trim()`: strip leading and trailing whitespace. -/
def strTrim (s : String) : String :=
  String.mk (((s.data.dropWhile Char.isWhitespace).reverse.dropWhile
    Char.isWhitespace).reverse)

/-- Does the second list start with the first? -/
def matchesAt : List Char → List Char → Bool
  | [], _ => true
  | _ :: _, [] => false
  | a :: as, b :: bs => a == b && matchesAt as bs

/-- Does `sub` occur anywhere in the second list? -/
def findSub (sub : List Char) : List Char → Bool
  | [] => matchesAt sub []
  | c :: cs => matchesAt sub (c :: cs) || findSub sub cs

/-- JavaScript `startsWith`. -/
def strStartsWith (s t : String) : Bool := matchesAt t.data s.data

/-- JavaScript `includes`. -/
def strIncludes (s t : String) : Bool := findSub t.data s.data

/-- Regex word character (`\w`): alphanumeric or underscore. -/
def isWordChar (c : Char) : Bool := c.isAlphanum || c == '_'

/-- Is there a regex word boundary just before `term` given the
preceding character (`none` at the start of the string)? -/
def boundaryOk (prev : Option Char) (term : List Char) : Bool :=
  match term with
  | [] => false
  | t0 :: _ =>
      match prev with
      | none => isWordChar t0
      | some p => isWordChar p != isWordChar t0

/-- Scan the name for an occurrence of (nonempty) `term` preceded by a
word boundary. -/
def wbSearch (term : List Char) : Option Char → List Char → Bool
  | _, [] => false
  | prev, c :: cs =>
      (boundaryOk prev term && matchesAt term (c :: cs)) || wbSearch term (some c) cs

/-- `name.match(new RegExp('\\b' + escapedTerm))`: the term is
regex-escaped in the source, so it is matched literally after a word
boundary.  (A bare `\b` — possible only for an all-whitespace query,
which the earlier ticker `startsWith` branch always absorbs — matches
iff the name has any word character.) -/
def wordBoundaryMatch (name term : String) : Bool :=
  match term.data with
  | [] => name.data.any isWordChar
  | _ :: _ => wbSearch term.data none name.data

/-- The scoring block of `search-companies`: exact ticker 10000, ticker
prefix 5000, ticker substring 1000, exact name 9000, name prefix 4000,
name word-boundary match 3000, name substring 100, otherwise 0. -/
def scoreCompany (searchTerm : String) (c : Company) : Nat :=
  let ticker := lowerStr c.ticker
  let name := lowerStr c.company_name
  if ticker = searchTerm then 10000
  else if strStartsWith ticker searchTerm then 5000
  else if strIncludes ticker searchTerm then 1000
  else if name = searchTerm then 9000
  else if strStartsWith name searchTerm then 4000
  else if wordBoundaryMatch name searchTerm then 3000
  else if strIncludes name searchTerm then 100
  else 0

/-- `query.toLowerCase().trim()` — the normalized search term. -/
def normQuery (query : String) : String := strTrim (lowerStr query)

/-- Descending order on the stored score, as the comparator
`(a, b) => b.score - a.score` sorts. -/
def scoreOrder (a b : Company × Nat) : Prop := b.2 ≤ a.2

instance : DecidableRel scoreOrder := fun a b => inferInstanceAs (Decidable (b.2 ≤ a.2))

instance : IsTotal (Company × Nat) scoreOrder := ⟨fun a b => le_total b.2 a.2⟩

instance : IsTrans (Company × Nat) scoreOrder := ⟨fun _ _ _ hab hbc => le_trans hbc hab⟩

/-- The scoring/sorting/slicing tail of `search-companies`: score every
fetched row, sort by descending score, return the first 20 rows with
the score stripped.  (The comparator sort is modelled by insertion
sort; the claims do not depend on how ties are ordered.) -/
def searchCompanies (query : String) (data : List Company) : List Company :=
  let searchTerm := normQuery query
  let scored := data.map (fun c => (c, scoreCompany searchTerm c))
  let sorted := List.insertionSort scoreOrder scored
  (sorted.take 20).map Prod.fst

theorem scoreCompany_le (t : String) (c : Company) : scoreCompany t c ≤ 10000 := by
  unfold scoreCompany
  dsimp only
  split_ifs <;> omega

theorem scoreCompany_eq_10000_iff (t : String) (c : Company) :
    scoreCompany t c = 10000 ↔ lowerStr c.ticker = t := by
  unfold scoreCompany
  dsimp only
  split_ifs with h1 h2 h3 h4 h5 h6 h7 <;> simp_all

theorem searchCompanies_mem_score (query : String) (data : List Company)
    (p : Company × Nat)
    (hp : p ∈ (List.insertionSort scoreOrder
      (data.map (fun c => (c, scoreCompany (normQuery query) c)))).take 20) :
    p.2 = scoreCompany (normQuery query) p.1 := by
  have hmem : p ∈ List.insertionSort scoreOrder
      (data.map (fun c => (c, scoreCompany (normQuery query) c))) :=
    List.take_subset _ _ hp
  have hmem2 : p ∈ data.map (fun c => (c, scoreCompany (normQuery query) c)) :=
    (List.perm_insertionSort scoreOrder _).mem_iff.mp hmem
  obtain ⟨c, _, hc⟩ := List.mem_map.mp hmem2
  rw [← hc]

theorem searchCompanies_pairwise (query : String) (data : List Company) :
    (searchCompanies query data).Pairwise
      (fun a b => scoreCompany (normQuery query) b ≤ scoreCompany (normQuery query) a) := by
  unfold searchCompanies
  dsimp only
  apply List.pairwise_map.mpr
  have hs : (List.insertionSort scoreOrder
      (data.map (fun c => (c, scoreCompany (normQuery query) c)))).Sorted scoreOrder :=
    List.sorted_insertionSort scoreOrder _
  have hp : ((List.insertionSort scoreOrder
      (data.map (fun c => (c, scoreCompany (normQuery query) c)))).take 20).Pairwise
      scoreOrder :=
    hs.sublist (List.take_sublist _ _)
  refine hp.imp_of_mem (fun ha hb hab => ?_)
  have h1 := searchCompanies_mem_score query data _ ha
  have h2 := searchCompanies_mem_score query data _ hb
  have hab2 : _ ≤ _ := hab
  rw [h1, h2] at hab2
  exact hab2

/-- C10: the company search returns at most 20 results, ordered by
non-increasing relevance score, and whenever some returned company's
lowercased ticker equals the normalized query (lowercased and trimmed,
exactly the comparison the code performs), the first result is such an
exact ticker match. -/
theorem c10_search_top20_sorted_exact_first (query : String) (data : List Company) :
    (searchCompanies query data).length ≤ 20 ∧
    (searchCompanies query data).Pairwise
      (fun a b => scoreCompany (normQuery query) b ≤ scoreCompany (normQuery query) a) ∧
    (∀ c ∈ searchCompanies query data, lowerStr c.ticker = normQuery query →
        ∃ f rest, searchCompanies query data = f :: rest ∧
          lowerStr f.ticker = normQuery query) := by
  refine ⟨?_, searchCompanies_pairwise query data, ?_⟩
  · unfold searchCompanies
    dsimp only
    rw [List.length_map]
    simp [List.length_take]
  · intro c hc hct
    cases hres : searchCompanies query data with
    | nil =>
        rw [hres] at hc
        cases hc
    | cons f rest =>
        refine ⟨f, rest, rfl, ?_⟩
        have hcscore : scoreCompany (normQuery query) c = 10000 :=
          (scoreCompany_eq_10000_iff _ _).mpr hct
        have hpair := searchCompanies_pairwise query data
        rw [hres] at hpair hc
        rw [List.pairwise_cons] at hpair
        rcases List.mem_cons.mp hc with rfl | hcr
        · exact hct
        · have h1 : scoreCompany (normQuery query) c ≤ scoreCompany (normQuery query) f :=
            hpair.1 c hcr
          have h2 : scoreCompany (normQuery query) f ≤ 10000 := scoreCompany_le _ _
          have h3 : scoreCompany (normQuery query) f = 10000 := by omega
          exact (scoreCompany_eq_10000_iff _ _).mp h3

/-- A two-row company table for the witness. -/
def c10Data : List Company :=
  [{ ticker := "AAPLX", company_name := "Apple Extended", cik := "2" },
   { ticker := "AAPL", company_name := "Apple Inc.", cik := "1" }]

/-- Witness for `c10_search_top20_sorted_exact_first`: searching
`"AAPL"` over `c10Data` puts the exact ticker match first even though
the prefix match comes first in the table. -/
theorem c10_search_top20_sorted_exact_first_witness :
    ∃ f rest, searchCompanies "AAPL" c10Data = f :: rest ∧
      lowerStr f.ticker = normQuery "AAPL" :=
  (c10_search_top20_sorted_exact_first "AAPL" c10Data).2.2
    { ticker := "AAPL", company_name := "Apple Inc.", cik := "1" }
    (by decide) (by decide)
